import Mathlib

/-!
Verification of hydra-router (pnxtech/hydra-router) against its
natural-language specification.

The definitions below are a shallow embedding of the JavaScript source:

* `src/lib/queuer.js`        — the Redis-backed offline message queue;
* `src/lib/servicerouter.js` — HTTP fallback routing, admin-route
  authorization, websocket message routing, channel-message handling,
  the issue log and the websocket admin dispatcher;
* `src/lib/stats.js`         — the per-second statistics ring.

JavaScript strings are modelled as Lean `String` (or as `List Char` for
segment-level reasoning); JS `undefined`/missing string fields are
modelled either as `Option` or as the empty string where the source
relies only on truthiness.  Redis lists are modelled as Lean lists whose
head is the LEFT end of the Redis list (LPUSH side), so RPUSH appends at
the tail and RPOPLPUSH pops the tail of the source list.
-/

/-! ### JS string primitives -/

/-- Embeds `isPrefixOfChars p l` : `p` is a prefix of `l` (char-by-char). -/
def isPrefixOfChars : List Char → List Char → Bool
  | [], _ => true
  | _ :: _, [] => false
  | a :: as, b :: bs => a == b && isPrefixOfChars as bs

/-- Embeds `containsSub hay sub` : `sub` occurs contiguously inside `hay`.
This embeds the JS test `hay.indexOf(sub) > -1`. -/
def containsSub (hay sub : List Char) : Bool :=
  if isPrefixOfChars sub hay then true
  else
    match hay with
    | [] => false
    | _ :: t => containsSub t sub

/-- JS `hay.indexOf(sub) > -1` on Lean strings. -/
def strContains (hay sub : String) : Bool :=
  containsSub hay.data sub.data

/-- First index at which `sub` occurs in `hay`, if any. -/
def firstOccurrenceAt : List Char → List Char → Option Nat
  | hay, sub =>
    if isPrefixOfChars sub hay then some 0
    else
      match hay with
      | [] => none
      | _ :: t =>
        match firstOccurrenceAt t sub with
        | some i => some (i + 1)
        | none => none

/-- JS `String.prototype.indexOf`: the index of the first occurrence,
`-1` when there is none.  The result is an `Int` exactly as in JS. -/
def jsIndexOf (hay sub : String) : Int :=
  match firstOccurrenceAt hay.data sub.data with
  | some i => (i : Int)
  | none => -1

/-- JS `str.split(sep)` on character lists: splitting the empty string
yields `[[]]`, a leading separator yields a leading empty part, etc. -/
def splitChar (sep : Char) : List Char → List (List Char)
  | [] => [[]]
  | c :: rest =>
    match splitChar sep rest with
    | [] => [[]]
    | s :: ss => if c == sep then [] :: s :: ss else (c :: s) :: ss

/-- JS `parts.join(sep)` on character lists. -/
def joinChar (sep : Char) : List (List Char) → List Char
  | [] => []
  | [x] => x
  | x :: y :: rest => x ++ sep :: joinChar sep (y :: rest)

/-! ### Offline message queue — `src/lib/queuer.js`

Redis state for one queue name: the `<queueName>:queued` list and the
`<queueName>:processing` list.  List head = Redis LEFT end. -/

structure PerQueue where
  queued : List String
  processing : List String
deriving DecidableEq

namespace Queuer

/-- Embeds `enqueue` (`queuer.js` line 60): `RPUSH <queueName>:queued js` —
append the serialized message at the tail of the queued list. -/
def enqueue (q : PerQueue) (js : String) : PerQueue :=
  { q with queued := q.queued ++ [js] }

/-- Embeds `dequeue` (`queuer.js` line 84):
`RPOPLPUSH <queueName>:queued <queueName>:processing` — pop the TAIL of
the queued list and push it onto the HEAD of the processing list,
returning the popped element (or none when the queue is empty). -/
def dequeue (q : PerQueue) : Option String × PerQueue :=
  match q.queued.getLast? with
  | none => (none, q)
  | some m => (some m, { queued := q.queued.dropLast, processing := m :: q.processing })

/-- Remove the single occurrence of `x` closest to the TAIL of `l`
(Redis `LREM key -1 x`). -/
def removeLastOcc (l : List String) (x : String) : List String :=
  (l.reverse.eraseP (fun y => y == x)).reverse

/-- Embeds `complete` (`queuer.js` line 104): `LREM <queueName>:processing -1 js`
— remove one matching entry from the processing list, scanning from the
tail. -/
def complete (q : PerQueue) (js : String) : PerQueue :=
  { q with processing := removeLastOcc q.processing js }

end Queuer

/-- Enqueue a whole list of messages in order (repeated `Queuer.enqueue`). -/
def enqueueAll (q : PerQueue) (ms : List String) : PerQueue :=
  ms.foldl Queuer.enqueue q

/-- The reconnect drain loop of `routeWSMessage`
(`servicerouter.js` lines 481–492): repeatedly `dequeue`; when a message
comes back, send it to the websocket and `complete` it; stop when the
queue yields nothing.  `fuel` bounds the iteration (each successful
`dequeue` shortens the queued list by one).  Returns the list of
messages delivered to the websocket, in delivery order, together with
the final queue state. -/
def drainGo : Nat → PerQueue → List String → List String × PerQueue
  | 0, q, acc => (acc, q)
  | Nat.succ n, q, acc =>
    match Queuer.dequeue q with
    | (none, q') => (acc, q')
    | (some m, q') => drainGo n (Queuer.complete q' m) (acc ++ [m])

/-- Drain a queue completely, as the reconnect handler does. -/
def drain (q : PerQueue) : List String × PerQueue :=
  drainGo q.queued.length q []

/-! ### HTTP fallback routing — `routeRequest`, `servicerouter.js` lines 711–745

`fallbackRoute` embeds what `routeRequest` does after `_matchRoute`
returned `null`: first the referer scan, then the first-path-segment
scan, else 404 (`sendNotFound`, modelled as `none`).  `names` is the
key list of `this.serviceNames` in insertion order; `referer` is the
`referer` header (`""` when absent, matching JS truthiness); `pathStr`
is the request URL path handed to `split('/')`. -/

/-- The referer scan (lines 712–724): the first known service name `s`
with `/s` occurring in the referer header. -/
def fallbackByReferer (names : List String) (referer : String) : Option String :=
  if referer ≠ "" then
    names.find? (fun s => strContains referer ("/" ++ s))
  else none

/-- The full fallback matcher (lines 712–745).  Returns
`some (serviceName, forwardedUrl)` or `none` (404). -/
def fallbackRoute (names : List String) (referer : String) (pathStr : String) :
    Option (String × String) :=
  match fallbackByReferer names referer with
  | some s => some (s, pathStr)
  | none =>
    match splitChar '/' pathStr.data with
    | s0 :: s1 :: rest =>
      if names.contains (String.mk s1) then
        let requestUrl := String.mk (joinChar '/' (s0 :: rest))
        some (String.mk s1, if requestUrl = "/" then "" else requestUrl)
      else none
    | _ => none

/-! ### JS-object association lists

JS objects keyed by strings are modelled as association lists that keep
insertion order: assigning an existing key replaces the value in place,
assigning a new key appends, `delete` removes. -/

/-- Embeds `obj[k]` — lookup. -/
def getAssoc {α : Type} (l : List (String × α)) (k : String) : Option α :=
  (l.find? (fun p => p.1 == k)).map (fun p => p.2)

/-- Embeds `obj[k] = v` — replace in place or append. -/
def setAssoc {α : Type} : List (String × α) → String → α → List (String × α)
  | [], k, v => [(k, v)]
  | (k', v') :: t, k, v =>
    if k' == k then (k, v) :: t else (k', v') :: setAssoc t k v

/-- Embeds `delete obj[k]`. -/
def removeAssoc {α : Type} (l : List (String × α)) (k : String) : List (String × α) :=
  l.filter (fun p => !(p.1 == k))

/-! ### Admin-route authorization — `_handleRouterRequest`,
`servicerouter.js` lines 906–930 -/

/-- JS `s.endsWith(suffix)` on Lean strings (via character lists). -/
def strEndsWith (s suffix : String) : Bool :=
  isPrefixOfChars suffix.data.reverse s.data.reverse

/-- The static-asset suffix test (lines 917–925). -/
def isStaticAsset (resourcePath : String) : Bool :=
  strEndsWith resourcePath ".css" || strEndsWith resourcePath ".js" ||
  strEndsWith resourcePath ".ttf" || strEndsWith resourcePath ".woff" ||
  strEndsWith resourcePath ".woff2"

/-- The `allowRouterCall` computation (lines 907–925).  `tokenParam` is
`qs.token` (`none` when the query carries no token); `isUUID4` abstracts
the external `Utils.isUUID4` helper of the hydra library. -/
def allowRouterCall (disableRouterEndpoint : Bool) (routerToken : String)
    (tokenParam : Option String) (pathname : String) (isUUID4 : String → Bool) : Bool :=
  let allow0 := !disableRouterEndpoint
  let allow1 :=
    if allow0 && !(routerToken == "") then
      match tokenParam with
      | some tok => isUUID4 tok && tok == routerToken
      | none => false
    else allow0
  if isStaticAsset pathname then true else allow1

/-- The guard at lines 927–930: 404 iff the host is not `localhost` and
the call is not allowed; `true` means the request proceeds to a handler. -/
def routerRequestServed (disableRouterEndpoint : Bool) (routerToken : String)
    (tokenParam : Option String) (pathname host : String)
    (isUUID4 : String → Bool) : Bool :=
  !(!(host == "localhost") &&
    !(allowRouterCall disableRouterEndpoint routerToken tokenParam pathname isUUID4))

/-! ### Websocket signature enforcement — `routeWSMessage`,
`servicerouter.js` lines 416–430 -/

inductive SigOutcome
  /-- the message proceeds to routing -/
  | proceed
  /-- an error frame with body `{error: err}` is sent and the
  connection is closed (`invalidMessage` + `wsDisconnect`) -/
  | rejectClose (err : String)
deriving DecidableEq

/-- The signature-enforcement step.  `sig` is `msg.signature` (`""` when
the frame carries none, matching JS truthiness); `recomputed` is the
value `msg.signMessage('sha256', secret)` stores — the HMAC-SHA-256 of
the canonical message under the shared secret, computed by the external
UMF library and abstracted here as an input. -/
def signatureCheck (forceMessageSignature : Bool) (sig recomputed : String) : SigOutcome :=
  if forceMessageSignature then
    if !(sig == "") then
      if !(sig == recomputed) then .rejectClose "Invalid signed UMF message"
      else .proceed
    else .rejectClose "Not a signed UMF message"
  else .proceed

/-! ### Channel-message handling — `_handleIncomingChannelMessage`,
`servicerouter.js` lines 198–273 -/

/-- A message arriving on the registry broadcast channel.  String fields
use `""` for a JS-absent value (the source only tests them for
truthiness).  `viaSubID` / `forwardInstance` carry the output of the
external `UMFMessage.parseRoute` applied to `via` / `forward`; for
`viaSubID`, `none` stands for the JS `undefined` produced when the via
route has no subID. -/
structure ChannelMsg where
  type : String
  bodyAction : String
  bodyRouterID : String
  bodyClientID : String
  bodyDirectory : List String
  via : String
  viaSubID : Option String
  forward : String
  forwardInstance : String
deriving DecidableEq

/-- Template-literal interpolation `${x}` of a possibly-undefined JS
string: `undefined` prints as `"undefined"`. -/
def jsInterpolate : Option String → String
  | some s => s
  | none => "undefined"

/-- The observable state touched by `_handleIncomingChannelMessage`:
self instance id, the replicated directory `wsClients`
(routerID → set of client ids, insertion-ordered), the ids of locally
connected websocket clients, the Redis queue store (full key → list),
and the log of messages sent to local websockets. -/
structure RouterState where
  serviceInstanceID : String
  wsClients : List (String × List String)
  wsLocalClients : List String
  queueStore : List (String × List ChannelMsg)
  sentWS : List (String × ChannelMsg)
deriving DecidableEq

/-- Embeds `Queuer.enqueue` at the store level: RPUSH onto `<queueName>:queued`. -/
def enqueueStore (store : List (String × List ChannelMsg)) (queueName : String)
    (m : ChannelMsg) : List (String × List ChannelMsg) :=
  setAssoc store (queueName ++ ":queued")
    ((getAssoc store (queueName ++ ":queued")).getD [] ++ [m])

/-- Embeds `this.wsClients[routerID][clientID] = 1` on the modelled key set. -/
def dirAdd (d : List String) (c : String) : List String :=
  if d.contains c then d else d ++ [c]

/-- Embeds `delete this.wsClients[routerID][clientID]`. -/
def dirDel (d : List String) (c : String) : List String :=
  d.filter (fun x => !(x == c))

/-- A directory-gossip message from replica `R` (type
`wsdir.add/del/rem/sha/dir`), as broadcast by a peer router. -/
def gmsg (R ty c : String) (d : List String) : ChannelMsg :=
  { type := ty, bodyAction := "", bodyRouterID := R, bodyClientID := c,
    bodyDirectory := d, via := "", viaSubID := none,
    forward := "", forwardInstance := "" }

/-- Embeds `_handleIncomingChannelMessage` (lines 198–273): refresh actions,
directory gossip from other replicas, `via` delivery/queueing, and
`forward` delivery/queueing. -/
def handleIncomingChannelMessage (st : RouterState) (m : ChannelMsg) : RouterState :=
  if m.bodyAction == "refresh" then
    st
  else if !(m.bodyRouterID == "") && !(m.bodyRouterID == st.serviceInstanceID) then
    let st1 :=
      if (getAssoc st.wsClients m.bodyRouterID).isNone then
        { st with wsClients := setAssoc st.wsClients m.bodyRouterID [] }
      else st
    let entry := (getAssoc st1.wsClients m.bodyRouterID).getD []
    if m.type == "wsdir.add" then
      { st1 with wsClients := setAssoc st1.wsClients m.bodyRouterID (dirAdd entry m.bodyClientID) }
    else if m.type == "wsdir.del" then
      { st1 with wsClients := setAssoc st1.wsClients m.bodyRouterID (dirDel entry m.bodyClientID) }
    else if m.type == "wsdir.rem" then
      { st1 with wsClients := removeAssoc st1.wsClients m.bodyRouterID }
    else if m.type == "wsdir.sha" then
      st1
    else if m.type == "wsdir.dir" then
      { st1 with wsClients := setAssoc st1.wsClients m.bodyRouterID m.bodyDirectory }
    else st1
  else if !(m.via == "") then
    let key := "hydra-router:message:queue:" ++ jsInterpolate m.viaSubID
    match m.viaSubID with
    | some sid =>
      if !(sid == "") && st.wsLocalClients.contains sid then
        { st with sentWS := st.sentWS ++ [(sid, { m with via := "", viaSubID := none })] }
      else
        { st with queueStore := enqueueStore st.queueStore key m }
    | none =>
      { st with queueStore := enqueueStore st.queueStore key m }
  else if !(m.forward == "") then
    let key := "hydra-router:message:queue:" ++ m.forwardInstance
    if st.wsLocalClients.contains m.forwardInstance then
      { st with sentWS := st.sentWS ++ [(m.forwardInstance, m)] }
    else
      { st with queueStore := enqueueStore st.queueStore key m }
  else st

/-! ### Statistics ring — `src/lib/stats.js` -/

/-- Embeds `ONE_HOUR` = 3600 slots. -/
def ONE_HOUR : Nat := 3600

/-- The `Stats` instance state: `stats` maps each target to its
3600-slot counter array; `cellVisit` marks seconds already counted. -/
structure StatsState where
  stats : List (String × List Nat)
  cellVisit : List Nat
deriving DecidableEq

/-- The constructor state (`stats = {}`, `cellVisit` zeroed). -/
def freshStats : StatsState :=
  { stats := [], cellVisit := List.replicate ONE_HOUR 0 }

/-- Embeds `_ensureEntry` (lines 91–95). -/
def ensureEntry (st : StatsState) (target : String) : StatsState :=
  match getAssoc st.stats target with
  | some _ => st
  | none => { st with stats := setAssoc st.stats target (List.replicate ONE_HOUR 0) }

/-- Embeds `Stats.log` (lines 103–120), with the wall-clock second passed
explicitly (`_getSecond` reads the real clock). -/
def statsLog (st : StatsState) (target : String) (second : Nat) : StatsState :=
  let st' := ensureEntry st target
  let entry := (getAssoc st'.stats target).getD []
  let reset := second == 0 && st'.cellVisit.getD 0 0 == 1
  let cv := if reset then List.replicate ONE_HOUR 0 else st'.cellVisit
  let entry1 := if reset then entry.set 0 0 else entry
  if cv.getD second 0 == 0 then
    { stats := setAssoc st'.stats target (entry1.set second 1),
      cellVisit := cv.set second 1 }
  else
    { stats := setAssoc st'.stats target
        (entry1.set second (entry1.getD second 0 + 1)),
      cellVisit := cv }

/-- Embeds `Stats.log` applied `n` times at the same target and second. -/
def statsLogN (st : StatsState) (target : String) (second : Nat) : Nat → StatsState
  | 0 => st
  | Nat.succ n => statsLog (statsLogN st target second n) target second

/-- The counter slot for `target` at index `second`. -/
def slotValue (st : StatsState) (target : String) (second : Nat) : Nat :=
  ((getAssoc st.stats target).getD []).getD second 0

/-- JS `l.slice(-k)` (the last `k` elements) for `k ≥ 1`. -/
def jsSliceNeg (l : List Nat) (k : Nat) : List Nat :=
  l.drop (l.length - k)

/-- One key of `Stats.getRawStats` (lines 141–148):
`this.stats[key].slice(-(ONE_HOUR - second)).concat(this.stats[key].slice(0, second))`. -/
def getRawStatsEntry (st : StatsState) (target : String) (second : Nat) : List Nat :=
  let data := (getAssoc st.stats target).getD []
  jsSliceNeg data (ONE_HOUR - second) ++ data.take second

/-- One key of `Stats.getStats` (lines 127–134): the same rotation,
then `.join(',')`. -/
def getStatsEntry (st : StatsState) (target : String) (second : Nat) : String :=
  let data := (getAssoc st.stats target).getD []
  String.intercalate ","
    ((jsSliceNeg data (ONE_HOUR - second) ++ data.take second).map (fun n => toString n))

/-- Embeds `Stats.getLastSecond` (lines 156–158): `data.slice(-ONE_SECOND)` —
note it returns a one-element array, not a sum. -/
def getLastSecond (data : List Nat) : List Nat :=
  jsSliceNeg data 1

/-- Run a list of `(target, second)` log calls from the fresh state. -/
def runStatsCalls (calls : List (String × Nat)) : StatsState :=
  calls.foldl (fun st c => statsLog st c.1 c.2) freshStats

/-- The counter array `this.stats[target]` reads as after `_ensureEntry`. -/
def entry0 (st : StatsState) (t : String) : List Nat :=
  (getAssoc st.stats t).getD (List.replicate ONE_HOUR 0)

/-- Concrete message for the C9 witness: a broadcast frame whose `via`
route parses without a subID. -/
def c9msg : ChannelMsg :=
  { type := "umf", bodyAction := "", bodyRouterID := "", bodyClientID := "",
    bodyDirectory := [], via := "hr@hydra-router:/", viaSubID := none,
    forward := "", forwardInstance := "" }

/-! ### Issue log — `ServiceRouter.log`, `servicerouter.js` lines 143–160 -/

/-- The issue-log state: the entry list, the debounce flag, and the
length captured by the pending cleanup closure (meaningful only while
`issueLogCleanupScheduled` is true). -/
structure IssueLogState where
  issueLog : List String
  issueLogCleanupScheduled : Bool
  pendingLen : Nat
deriving DecidableEq

/-- Embeds `ServiceRouter.log` (entry abstracted to its text): push the entry;
when the new length exceeds `MAX_ISSUE_LOG_ENTRIES` (100) and no cleanup
is scheduled, schedule the debounced cleanup 30 s later, capturing the
current length. -/
def srLog (st : IssueLogState) (entry : String) : IssueLogState :=
  let log' := st.issueLog ++ [entry]
  let len := log'.length
  if len > 100 && !st.issueLogCleanupScheduled then
    { issueLog := log', issueLogCleanupScheduled := true, pendingLen := len }
  else
    { st with issueLog := log' }

/-- The debounced cleanup callback (lines 155–158):
`this.issueLog.splice(0, len - MAX_ISSUE_LOG_ENTRIES)` with the captured
`len`, then clear the flag. -/
def issueLogCleanup (st : IssueLogState) : IssueLogState :=
  { issueLog := st.issueLog.drop (st.pendingLen - 100),
    issueLogCleanupScheduled := false, pendingLen := 0 }

/-! ### Websocket admin dispatcher — `_handleRouterRequestWS`,
`servicerouter.js` lines 1034–1066 -/

inductive WSAdminAction
  | listRoutes | listServices | listNodes | listWSDir
  | clearSvc | health | refreshRoutes | version | stats
  /-- the error frame `Route <apiRoute> is not routable.` -/
  | errorReply
deriving DecidableEq

/-- Which handler `_handleRouterRequestWS` runs for a given
`route.apiRoute`, including the `indexOf('wsdir') < -1` comparison
exactly as written in the source (line 1049). -/
def handleRouterRequestWS (apiRoute : String) : WSAdminAction :=
  if jsIndexOf apiRoute "/v1/router/list" > -1 then
    if jsIndexOf apiRoute "routes" > -1 then .listRoutes
    else if jsIndexOf apiRoute "services" > -1 then .listServices
    else if jsIndexOf apiRoute "nodes" > -1 then .listNodes
    else if jsIndexOf apiRoute "wsdir" < -1 then .listWSDir
    else .errorReply
  else if jsIndexOf apiRoute "/v1/router/clear" > -1 then .clearSvc
  else if jsIndexOf apiRoute "/v1/router/health" > -1 then .health
  else if jsIndexOf apiRoute "/v1/router/refresh" > -1 then .refreshRoutes
  else if jsIndexOf apiRoute "/v1/router/version" > -1 then .version
  else if jsIndexOf apiRoute "/v1/router/stats" > -1 then .stats
  else .errorReply

/-! ### Theorems -/

theorem splitChar_ne_nil (sep : Char) (l : List Char) : splitChar sep l ≠ [] := by
  cases l with
  | nil => simp [splitChar]
  | cons c rest =>
    cases h : splitChar sep rest with
    | nil => simp [splitChar, h]
    | cons s ss =>
      by_cases hc : (c == sep) = true <;> simp [splitChar, h, hc]

theorem splitChar_sep_cons (sep : Char) (l : List Char) :
    splitChar sep (sep :: l) = [] :: splitChar sep l := by
  cases h : splitChar sep l with
  | nil => exact absurd h (splitChar_ne_nil sep l)
  | cons s ss => simp [splitChar, h]

theorem splitChar_append_no_sep (sep : Char) (s1 : List Char) (hs : sep ∉ s1) :
    ∀ (r h : List Char) (t : List (List Char)), splitChar sep r = h :: t →
      splitChar sep (s1 ++ r) = (s1 ++ h) :: t := by
  induction s1 with
  | nil => intro r h t hht; simpa using hht
  | cons c cs ih =>
    intro r h t hht
    have hcb : (c == sep) = false := by
      refine beq_eq_false_iff_ne.mpr (fun hceq => hs ?_)
      exact hceq ▸ List.mem_cons_self c cs
    have hrec := ih (fun hm => hs (List.mem_cons_of_mem _ hm)) r h t hht
    simp [splitChar, hrec, hcb]

theorem joinChar_splitChar (sep : Char) (l : List Char) :
    joinChar sep (splitChar sep l) = l := by
  induction l with
  | nil => simp [splitChar, joinChar]
  | cons c rest ih =>
    cases h : splitChar sep rest with
    | nil => exact absurd h (splitChar_ne_nil sep rest)
    | cons s ss =>
      rw [h] at ih
      by_cases hc : c = sep
      · subst hc
        rw [splitChar_sep_cons, h]
        simpa [joinChar] using ih
      · have hcb : (c == sep) = false := beq_eq_false_iff_ne.mpr hc
        simp only [splitChar, h, hcb, Bool.false_eq_true, if_false]
        cases ss with
        | nil => simpa [joinChar] using congrArg (c :: ·) ih
        | cons s2 ss2 => simpa [joinChar] using congrArg (c :: ·) ih

theorem drainGo_reverse (n : Nat) :
    ∀ (ms acc : List String), ms.length ≤ n →
      drainGo n ⟨ms, []⟩ acc = (acc ++ ms.reverse, ⟨[], []⟩) := by
  induction n with
  | zero =>
    intro ms acc h
    have hms : ms = [] := List.length_eq_zero.mp (Nat.le_zero.mp h)
    subst hms
    simp [drainGo]
  | succ n ih =>
    intro ms acc h
    rcases hrev : ms.reverse with _ | ⟨a, rest⟩
    · have hms : ms = [] := by
        have := congrArg List.reverse hrev
        simpa using this
      subst hms
      simp [drainGo, Queuer.dequeue]
    · have hms : ms = rest.reverse ++ [a] := by
        have := congrArg List.reverse hrev
        simpa using this
      subst hms
      have hlast : (rest.reverse ++ [a]).getLast? = some a := by
        simp [List.getLast?_concat]
      have hdrop : (rest.reverse ++ [a]).dropLast = rest.reverse := by
        simp [List.dropLast_concat]
      have hlen : rest.reverse.length ≤ n := by
        have h' := h
        simp only [List.length_append, List.length_reverse, List.length_cons,
          List.length_nil] at h'
        simp only [List.length_reverse]
        omega
      have hrem : Queuer.removeLastOcc [a] a = [] := by
        simp [Queuer.removeLastOcc]
      simp only [drainGo, Queuer.dequeue, hlast, hdrop, Queuer.complete, hrem]
      rw [ih rest.reverse (acc ++ [a]) hlen]
      simp

theorem drain_enqueueAll_reverse (ms : List String) :
    drain (enqueueAll ⟨[], []⟩ ms) = (ms.reverse, ⟨[], []⟩) := by
  have hq : enqueueAll ⟨[], []⟩ ms = ⟨ms, []⟩ := by
    have : ∀ (pre : List String), enqueueAll ⟨pre, []⟩ ms = ⟨pre ++ ms, []⟩ := by
      induction ms with
      | nil => intro pre; simp [enqueueAll]
      | cons a t ih =>
        intro pre
        simp only [enqueueAll, List.foldl_cons, Queuer.enqueue] at *
        rw [ih (pre ++ [a])]
        simp
    simpa using this []
  rw [hq]
  unfold drain
  exact drainGo_reverse ms.length ms [] (Nat.le_refl _)

theorem strContains_empty_slash (s : String) :
    strContains "" ("/" ++ s) = false := by
  have hdata : ("/" ++ s).data = '/' :: s.data := by
    simp [String.data_append]
  simp [strContains, hdata, containsSub, isPrefixOfChars]

theorem contains_eq_true_of_mem {a : String} {l : List String} (h : a ∈ l) :
    l.contains a = true := by
  induction l with
  | nil => cases h
  | cons b t ih =>
    rcases List.mem_cons.mp h with h1 | h2
    · simp [h1]
    · simp [ih h2]
      exact Or.inr h2

/-- Claim C2: For a request whose path matched no RouteTable pattern:
(a) if the referer contains `/s` for a known service `s`, the request is
attributed to such an `s` with the forwarded URL unchanged; (b) else, if
the first path segment is a known service name, the request is
attributed to it and the forwarded URL is the path with that first
segment removed (an empty remainder becoming `""`); (c) else the result
is `none`, i.e. 404 Not Found. -/
theorem C2_http_fallback (names : List String) (referer pathStr : String) :
    (∀ s, s ∈ names → strContains referer ("/" ++ s) = true →
      ∃ s', s' ∈ names ∧ strContains referer ("/" ++ s') = true ∧
        fallbackRoute names referer pathStr = some (s', pathStr)) ∧
    (∀ s1 r, (∀ s, s ∈ names → strContains referer ("/" ++ s) = false) →
      pathStr.data = '/' :: (s1 ++ r) → '/' ∉ s1 →
      (r = [] ∨ ∃ r', r = '/' :: r') →
      String.mk s1 ∈ names →
      fallbackRoute names referer pathStr
        = some (String.mk s1, if r = ['/'] then "" else String.mk r)) ∧
    ((∀ s, s ∈ names → strContains referer ("/" ++ s) = false) →
      (∀ s1, (splitChar '/' pathStr.data).get? 1 = some s1 →
        names.contains (String.mk s1) = false) →
      fallbackRoute names referer pathStr = none) := by
  refine ⟨?_, ?_, ?_⟩
  · -- (a) referer attribution
    intro s hmem hcont
    by_cases hr : referer = ""
    · rw [hr, strContains_empty_slash] at hcont
      cases hcont
    · have hsome : (names.find? (fun s => strContains referer ("/" ++ s))).isSome := by
        rw [List.find?_isSome]
        exact ⟨s, hmem, hcont⟩
      rcases Option.isSome_iff_exists.mp hsome with ⟨s', hfind⟩
      have hps' : strContains referer ("/" ++ s') = true := by
        have := List.find?_some hfind
        simpa using this
      refine ⟨s', List.mem_of_find?_eq_some hfind, hps', ?_⟩
      simp [fallbackRoute, fallbackByReferer, hr, hfind]
  · -- (b) first-segment attribution
    intro s1 r hnoref hpath hs1 hr hmem
    have hbr : fallbackByReferer names referer = none := by
      by_cases hre : referer = ""
      · simp [fallbackByReferer, hre]
      · simp only [fallbackByReferer, hre, ne_eq, not_false_iff, if_true]
        exact List.find?_eq_none.mpr (fun x hx => by simp [hnoref x hx])
    have hcont : names.contains (String.mk s1) = true := contains_eq_true_of_mem hmem
    rcases hr with hnil | ⟨r', hr'⟩
    · subst hnil
      have hsplit : splitChar '/' pathStr.data = [[], s1] := by
        rw [hpath, splitChar_sep_cons]
        rw [splitChar_append_no_sep '/' s1 hs1 [] [] [] rfl]
        simp
      have hne : ¬(String.mk ([] : List Char) = "/") := by decide
      simp [fallbackRoute, hbr, hsplit, hcont, hmem, hne, joinChar]
    · subst hr'
      cases hsub : splitChar '/' r' with
      | nil => exact absurd hsub (splitChar_ne_nil '/' r')
      | cons h2 t2 =>
        have hsplit : splitChar '/' pathStr.data = [] :: s1 :: h2 :: t2 := by
          rw [hpath, splitChar_sep_cons]
          rw [splitChar_append_no_sep '/' s1 hs1 ('/' :: r') [] (splitChar '/' r')
            (splitChar_sep_cons '/' r')]
          simp [hsub]
        have hjoin : joinChar '/' ([] :: h2 :: t2) = '/' :: r' := by
          have := joinChar_splitChar '/' r'
          rw [hsub] at this
          simpa [joinChar] using this
        simp only [fallbackRoute, hbr, hsplit, hcont, if_true, hjoin]
        rcases eq_or_ne ('/' :: r' : List Char) ['/'] with hsl | hsl
        · have hr0 : r' = [] := by simpa using hsl
          subst hr0
          have hmkeq : String.mk ['/'] = "/" := by decide
          simp [hmkeq]
        · have hmkne : String.mk ('/' :: r') ≠ "/" := by
            intro hcontra
            apply hsl
            have hd := congrArg String.data hcontra
            simpa using hd
          simp [fallbackRoute, hmem, hsl, hmkne]
  · -- (c) no match: 404
    intro hnoref hseg
    have hbr : fallbackByReferer names referer = none := by
      by_cases hre : referer = ""
      · simp [fallbackByReferer, hre]
      · simp only [fallbackByReferer, hre, ne_eq, not_false_iff, if_true]
        exact List.find?_eq_none.mpr (fun x hx => by simp [hnoref x hx])
    cases hsp : splitChar '/' pathStr.data with
    | nil => simp [fallbackRoute, hbr, hsp]
    | cons a as =>
      cases as with
      | nil => simp [fallbackRoute, hbr, hsp]
      | cons b bs =>
        have hb : names.contains (String.mk b) = false := by
          apply hseg
          simp [hsp]
        have hbm : String.mk b ∉ names := by
          intro hm
          have hceq := contains_eq_true_of_mem hm
          rw [hceq] at hb
          cases hb
        simp [fallbackRoute, hbr, hsp, hb, hbm]

/-- Claim C2 witness: Concrete instance: service `"red"` known, no
referer, path `/red/hello` — attributed to `red`, forwarded URL
`/hello`. -/
theorem C2_http_fallback_witness :
    fallbackRoute ["red"] "" "/red/hello" = some ("red", "/hello") := by
  have h := (C2_http_fallback ["red"] "" "/red/hello").2.1
    "red".data "/hello".data
    (by intro s hs; fin_cases hs; decide)
    (by decide) (by decide) (Or.inr ⟨"hello".data, by decide⟩) (by decide)
  rw [h]
  decide

/-- Claim C1: The spec claims the offline queue delivers messages to a
reconnecting client in enqueue order (`m1` first, `mk` last).  The code
enqueues with `RPUSH` and drains with `RPOPLPUSH`, which pops the most
recently enqueued message first: the drain delivers the messages in
REVERSE enqueue order.  Concretely, enqueuing `"m1"` then `"m2"` and
draining delivers `["m2", "m1"]`; in general the delivery order is the
reversal of the enqueue order (each delivered message is still removed
from the processing list, which ends empty). -/
theorem C1_offline_queue_drains_in_reverse_order :
    (drain (enqueueAll ⟨[], []⟩ ["m1", "m2"])).1 = ["m2", "m1"] ∧
    ∀ (ms : List String),
      drain (enqueueAll ⟨[], []⟩ ms) = (ms.reverse, ⟨[], []⟩) := by
  constructor
  · rw [drain_enqueueAll_reverse]
    rfl
  · exact drain_enqueueAll_reverse

/-! #### C3 — admin-route authorization -/

/-- Claim C3 counterexample: The claim says that with
`disableRouterEndpoint = true` EVERY admin request to a non-static path
gets 404.  But the guard fires only for non-`localhost` hosts
(line 927): a request with host `localhost` for `/v1/router/version` is
served even though `disableRouterEndpoint = true`. -/
theorem C3_counterexample_localhost_bypass :
    routerRequestServed true "" none "/v1/router/version" "localhost"
      (fun _ => false) = true := by
  decide

/-- Claim C3, amended: For requests from a non-`localhost` host to a
non-static-asset path: (1) with `disableRouterEndpoint = true` the
response is 404; (2) with `disableRouterEndpoint = false` and a
non-empty `routerToken` T, the request is served iff it carries a
`token` query parameter that `isUUID4` accepts and that equals T
exactly.  (Localhost requests and static-asset paths bypass both
checks.) -/
theorem C3_admin_authorization (routerToken : String) (tokenParam : Option String)
    (pathname host : String) (isUUID4 : String → Bool) :
    (host ≠ "localhost" → isStaticAsset pathname = false →
      routerRequestServed true routerToken tokenParam pathname host isUUID4 = false) ∧
    (host ≠ "localhost" → isStaticAsset pathname = false → routerToken ≠ "" →
      (routerRequestServed false routerToken tokenParam pathname host isUUID4 = true ↔
        ∃ tok, tokenParam = some tok ∧ isUUID4 tok = true ∧ tok = routerToken)) := by
  constructor
  · intro hhost hstatic
    have hh : (host == "localhost") = false := beq_eq_false_iff_ne.mpr hhost
    cases tokenParam with
    | none => simp [routerRequestServed, allowRouterCall, hh, hstatic]
    | some tok => simp [routerRequestServed, allowRouterCall, hh, hstatic]
  · intro hhost hstatic htok
    have hh : (host == "localhost") = false := beq_eq_false_iff_ne.mpr hhost
    have ht : (routerToken == "") = false := beq_eq_false_iff_ne.mpr htok
    cases tokenParam with
    | none => simp [routerRequestServed, allowRouterCall, hh, hstatic, ht]
    | some tok =>
      simp only [routerRequestServed, allowRouterCall, hh, hstatic, ht]
      constructor
      · intro h
        simp at h
        exact ⟨tok, rfl, h.1, h.2⟩
      · rintro ⟨tok', htok', hu, he⟩
        cases htok'
        subst he
        simp [hu]

/-- Claim C3 witness for the amended theorem: a non-localhost request with
the right UUIDv4 token is served. -/
theorem C3_admin_authorization_witness :
    routerRequestServed false "6fbdcb7e-23a6-4e3c-9ae1-9c737a1e7b21"
      (some "6fbdcb7e-23a6-4e3c-9ae1-9c737a1e7b21")
      "/v1/router/version" "example.com" (fun _ => true) = true := by
  have h := (C3_admin_authorization "6fbdcb7e-23a6-4e3c-9ae1-9c737a1e7b21"
    (some "6fbdcb7e-23a6-4e3c-9ae1-9c737a1e7b21")
    "/v1/router/version" "example.com" (fun _ => true)).2
    (by decide) (by decide) (by decide)
  exact h.mpr ⟨"6fbdcb7e-23a6-4e3c-9ae1-9c737a1e7b21", rfl, rfl, rfl⟩

/-! #### C4 — signature enforcement -/

/-- Claim C4: With `forceMessageSignature` on: a frame without a signature
is rejected with the error frame `Not a signed UMF message` and the
connection closed; a frame whose signature differs from the recomputed
HMAC-SHA-256 is rejected with `Invalid signed UMF message` and the
connection closed; a frame proceeds to routing iff it carries a
signature equal to the recomputed one. -/
theorem C4_signature_enforcement (sig recomputed : String) :
    (signatureCheck true "" recomputed
      = SigOutcome.rejectClose "Not a signed UMF message") ∧
    (sig ≠ "" → sig ≠ recomputed →
      signatureCheck true sig recomputed
        = SigOutcome.rejectClose "Invalid signed UMF message") ∧
    (signatureCheck true sig recomputed = SigOutcome.proceed ↔
      (sig ≠ "" ∧ sig = recomputed)) := by
  refine ⟨by simp [signatureCheck], ?_, ?_⟩
  · intro h1 h2
    have hb1 : (sig == "") = false := beq_eq_false_iff_ne.mpr h1
    have hb2 : (sig == recomputed) = false := beq_eq_false_iff_ne.mpr h2
    simp [signatureCheck, hb1, hb2]
  · constructor
    · intro h
      by_cases h1 : sig = ""
      · simp [signatureCheck, h1] at h
      · by_cases h2 : sig = recomputed
        · exact ⟨h1, h2⟩
        · have hb1 : (sig == "") = false := beq_eq_false_iff_ne.mpr h1
          have hb2 : (sig == recomputed) = false := beq_eq_false_iff_ne.mpr h2
          simp [signatureCheck, hb1, hb2] at h
    · rintro ⟨h1, h2⟩
      have hb1 : (sig == "") = false := beq_eq_false_iff_ne.mpr h1
      subst h2
      simp [signatureCheck, hb1]

/-- Claim C4 witness: a frame signed `"abc"` whose recomputed HMAC is
`"xyz"` is rejected as invalid. -/
theorem C4_signature_enforcement_witness :
    signatureCheck true "abc" "xyz"
      = SigOutcome.rejectClose "Invalid signed UMF message" :=
  (C4_signature_enforcement "abc" "xyz").2.1 (by decide) (by decide)

/-! #### C7 — issue-log bound -/

set_option maxRecDepth 20000

/-- Claim C7 counterexample: The claim says the issue log never exceeds
100 entries after `log` returns.  But the trim is debounced (it runs 30
seconds after being scheduled): after 101 consecutive `log` calls from
an empty log, the log holds 101 entries. -/
theorem C7_counterexample_log_exceeds_100 :
    ((List.replicate 101 "entry").foldl srLog
      ⟨[], false, 0⟩).issueLog.length = 101 := by
  decide

/-- Claim C7, amended: The ≤ 100 bound does not hold immediately after
`log` returns; it holds after the debounced cleanup fires, provided no
further entries were logged since the cleanup was scheduled (the splice
removes `len − 100` oldest entries for the captured `len`). -/
theorem C7_issue_log_bound_after_cleanup (st : IssueLogState)
    (hsched : st.issueLogCleanupScheduled = true)
    (hlen : st.pendingLen = st.issueLog.length) :
    (issueLogCleanup st).issueLog.length ≤ 100 := by
  simp only [issueLogCleanup, List.length_drop]
  omega

/-- Claim C7 witness: a scheduled state holding 150 entries is trimmed to
at most 100. -/
theorem C7_issue_log_bound_witness :
    (issueLogCleanup ⟨List.replicate 150 "entry", true, 150⟩).issueLog.length ≤ 100 :=
  C7_issue_log_bound_after_cleanup ⟨List.replicate 150 "entry", true, 150⟩
    (by decide) (by simp)

/-! #### C8 — the dead `wsdir` branch -/

theorem neg_one_le_jsIndexOf (hay sub : String) : -1 ≤ jsIndexOf hay sub := by
  unfold jsIndexOf
  cases h : firstOccurrenceAt hay.data sub.data with
  | none => simp
  | some i =>
    simp only []
    have := Int.natCast_nonneg i
    omega

/-- Claim C8: `String.indexOf` never returns less than `-1`, so the guard
`apiRoute.indexOf('wsdir') < -1` at line 1049 is false for every string:
the `wsdir` listing branch of the websocket admin dispatcher is
unreachable, and the apiRoute `/v1/router/list/wsdir` falls through to
the error branch (`Route ... is not routable.`). -/
theorem C8_wsdir_branch_unreachable :
    (∀ apiRoute : String, handleRouterRequestWS apiRoute ≠ WSAdminAction.listWSDir) ∧
    handleRouterRequestWS "/v1/router/list/wsdir" = WSAdminAction.errorReply := by
  constructor
  · intro r hEq
    have h := neg_one_le_jsIndexOf r "wsdir"
    unfold handleRouterRequestWS at hEq
    split_ifs at hEq <;> first
      | omega
      | exact absurd hEq (by simp)
  · decide

/-! #### Association-list lemmas -/

theorem getAssoc_setAssoc_self {α : Type} (l : List (String × α)) (k : String) (v : α) :
    getAssoc (setAssoc l k v) k = some v := by
  induction l with
  | nil => simp [setAssoc, getAssoc, List.find?]
  | cons p t ih =>
    obtain ⟨k', v'⟩ := p
    by_cases h : (k' == k) = true
    · simp [setAssoc, h, getAssoc, List.find?]
    · simp only [setAssoc, h, Bool.false_eq_true, if_false]
      simpa [getAssoc, List.find?, h] using ih

theorem getAssoc_setAssoc_ne {α : Type} (l : List (String × α)) (k k' : String) (v : α)
    (h : k' ≠ k) : getAssoc (setAssoc l k v) k' = getAssoc l k' := by
  have hkk : (k == k') = false := beq_eq_false_iff_ne.mpr (Ne.symm h)
  induction l with
  | nil => simp [setAssoc, getAssoc, List.find?, hkk]
  | cons p t ih =>
    obtain ⟨k₀, v₀⟩ := p
    by_cases h0 : (k₀ == k) = true
    · have hk0 : k₀ = k := eq_of_beq h0
      simp [setAssoc, h0, getAssoc, List.find?, hkk, hk0]
    · simp only [setAssoc, h0, Bool.false_eq_true, if_false]
      by_cases h1 : (k₀ == k') = true
      · simp [getAssoc, List.find?, h1]
      · simpa [getAssoc, List.find?, h1] using ih

theorem setAssoc_setAssoc {α : Type} (l : List (String × α)) (k : String) (v w : α) :
    setAssoc (setAssoc l k v) k w = setAssoc l k w := by
  induction l with
  | nil => simp [setAssoc]
  | cons p t ih =>
    obtain ⟨k', v'⟩ := p
    by_cases h : (k' == k) = true
    · simp [setAssoc, h]
    · simp [setAssoc, h, ih]

theorem removeAssoc_setAssoc {α : Type} (l : List (String × α)) (k : String) (v : α) :
    removeAssoc (setAssoc l k v) k = removeAssoc l k := by
  induction l with
  | nil => simp [setAssoc, removeAssoc]
  | cons p t ih =>
    obtain ⟨k', v'⟩ := p
    by_cases h : (k' == k) = true
    · simp [setAssoc, h, removeAssoc]
    · simp [setAssoc, removeAssoc, h] at ih ⊢
      exact ih

theorem getAssoc_removeAssoc_self {α : Type} (l : List (String × α)) (k : String) :
    getAssoc (removeAssoc l k) k = none := by
  induction l with
  | nil => simp [removeAssoc, getAssoc, List.find?]
  | cons p t ih =>
    obtain ⟨k', v'⟩ := p
    by_cases h : (k' == k) = true
    · simpa [removeAssoc, h] using ih
    · simp only [removeAssoc, List.filter_cons, h, Bool.not_false]
      simpa [removeAssoc, getAssoc, List.find?, h] using ih

theorem mem_of_contains_eq_true {a : String} {l : List String}
    (h : l.contains a = true) : a ∈ l := by
  induction l with
  | nil => simp [List.contains, List.elem] at h
  | cons b t ih =>
    by_cases hab : (a == b) = true
    · have : a = b := eq_of_beq hab
      subst this
      exact List.mem_cons_self a t
    · have h' : t.contains a = true := by
        simpa [List.contains, List.elem, hab] using h
      exact List.mem_cons_of_mem _ (ih h')

/-! #### Channel-handler step lemmas -/

theorem handle_serviceInstanceID (st : RouterState) (m : ChannelMsg) :
    (handleIncomingChannelMessage st m).serviceInstanceID = st.serviceInstanceID := by
  cases hvs : m.viaSubID with
  | some sid =>
    simp only [handleIncomingChannelMessage, hvs]
    split_ifs <;> rfl
  | none =>
    simp only [handleIncomingChannelMessage, hvs]
    split_ifs <;> rfl

theorem handle_dir_eq (st : RouterState) (R : String) (d : List String)
    (hR : R ≠ "") (hself : R ≠ st.serviceInstanceID) :
    handleIncomingChannelMessage st (gmsg R "wsdir.dir" "" d)
      = { st with wsClients := setAssoc st.wsClients R d } := by
  have hR' : (R == "") = false := beq_eq_false_iff_ne.mpr hR
  have hs' : (R == st.serviceInstanceID) = false := beq_eq_false_iff_ne.mpr hself
  by_cases hE : (getAssoc st.wsClients R).isNone
  · simp [handleIncomingChannelMessage, gmsg, hR', hs', hE, setAssoc_setAssoc]
  · simp [handleIncomingChannelMessage, gmsg, hR', hs', hE]

theorem handle_add_eq (st : RouterState) (R c : String)
    (hR : R ≠ "") (hself : R ≠ st.serviceInstanceID) :
    handleIncomingChannelMessage st (gmsg R "wsdir.add" c [])
      = { st with wsClients := setAssoc st.wsClients R (dirAdd ((getAssoc st.wsClients R).getD []) c) } := by
  have hR' : (R == "") = false := beq_eq_false_iff_ne.mpr hR
  have hs' : (R == st.serviceInstanceID) = false := beq_eq_false_iff_ne.mpr hself
  by_cases hE : (getAssoc st.wsClients R).isNone
  · have hEn : getAssoc st.wsClients R = none := Option.isNone_iff_eq_none.mp hE
    simp [handleIncomingChannelMessage, gmsg, hR', hs', hE, hEn,
      getAssoc_setAssoc_self, setAssoc_setAssoc]
  · simp [handleIncomingChannelMessage, gmsg, hR', hs', hE]

theorem handle_del_eq (st : RouterState) (R c : String)
    (hR : R ≠ "") (hself : R ≠ st.serviceInstanceID) :
    handleIncomingChannelMessage st (gmsg R "wsdir.del" c [])
      = { st with wsClients := setAssoc st.wsClients R (dirDel ((getAssoc st.wsClients R).getD []) c) } := by
  have hR' : (R == "") = false := beq_eq_false_iff_ne.mpr hR
  have hs' : (R == st.serviceInstanceID) = false := beq_eq_false_iff_ne.mpr hself
  by_cases hE : (getAssoc st.wsClients R).isNone
  · have hEn : getAssoc st.wsClients R = none := Option.isNone_iff_eq_none.mp hE
    simp [handleIncomingChannelMessage, gmsg, hR', hs', hE, hEn,
      getAssoc_setAssoc_self, setAssoc_setAssoc]
  · simp [handleIncomingChannelMessage, gmsg, hR', hs', hE]

theorem handle_rem_eq (st : RouterState) (R : String)
    (hR : R ≠ "") (hself : R ≠ st.serviceInstanceID) :
    handleIncomingChannelMessage st (gmsg R "wsdir.rem" "" [])
      = { st with wsClients := removeAssoc st.wsClients R } := by
  have hR' : (R == "") = false := beq_eq_false_iff_ne.mpr hR
  have hs' : (R == st.serviceInstanceID) = false := beq_eq_false_iff_ne.mpr hself
  by_cases hE : (getAssoc st.wsClients R).isNone
  · simp [handleIncomingChannelMessage, gmsg, hR', hs', hE, removeAssoc_setAssoc]
  · simp [handleIncomingChannelMessage, gmsg, hR', hs', hE]

theorem foldl_handle_serviceInstanceID (ms : List ChannelMsg) :
    ∀ st : RouterState,
      (ms.foldl handleIncomingChannelMessage st).serviceInstanceID
        = st.serviceInstanceID := by
  induction ms with
  | nil => intro st; rfl
  | cons a t ih =>
    intro st
    rw [List.foldl_cons, ih, handle_serviceInstanceID]

theorem mem_dirAdd (d : List String) (c x : String) :
    x ∈ dirAdd d c ↔ (x ∈ d ∨ x = c) := by
  unfold dirAdd
  by_cases h : d.contains c = true
  · have hc : c ∈ d := mem_of_contains_eq_true h
    simp only [h, if_true]
    constructor
    · exact Or.inl
    · rintro (hx | rfl)
      · exact hx
      · exact hc
  · simp only [h, Bool.false_eq_true, if_false, List.mem_append, List.mem_singleton]

theorem mem_dirDel (d : List String) (c x : String) :
    x ∈ dirDel d c ↔ (x ∈ d ∧ x ≠ c) := by
  simp [dirDel, List.mem_filter]

/-! #### C5 — directory gossip -/

/-- Claim C5: For a sender replica `R` distinct from this replica:
any message sequence ending in `wsdir.dir d` leaves
`GlobalDirectory[R] = d`; reapplying that `dir` is idempotent;
`wsdir.add c` marks exactly `c` present in `R`'s entry; `wsdir.del c`
removes exactly `c`; `wsdir.rem` deletes `R`'s entire entry. -/
theorem C5_directory_gossip (st : RouterState) (R : String)
    (hR : R ≠ "") (hself : R ≠ st.serviceInstanceID) :
    (∀ (ms : List ChannelMsg) (d : List String),
      getAssoc ((ms ++ [gmsg R "wsdir.dir" "" d]).foldl handleIncomingChannelMessage st).wsClients R = some d) ∧
    (∀ d : List String,
      handleIncomingChannelMessage (handleIncomingChannelMessage st (gmsg R "wsdir.dir" "" d)) (gmsg R "wsdir.dir" "" d)
        = handleIncomingChannelMessage st (gmsg R "wsdir.dir" "" d)) ∧
    (∀ c x : String,
      x ∈ (getAssoc (handleIncomingChannelMessage st (gmsg R "wsdir.add" c [])).wsClients R).getD [] ↔
        (x ∈ (getAssoc st.wsClients R).getD [] ∨ x = c)) ∧
    (∀ c x : String,
      x ∈ (getAssoc (handleIncomingChannelMessage st (gmsg R "wsdir.del" c [])).wsClients R).getD [] ↔
        (x ∈ (getAssoc st.wsClients R).getD [] ∧ x ≠ c)) ∧
    getAssoc (handleIncomingChannelMessage st (gmsg R "wsdir.rem" "" [])).wsClients R = none := by
  refine ⟨?_, ?_, ?_, ?_, ?_⟩
  · intro ms d
    rw [List.foldl_append, List.foldl_cons, List.foldl_nil]
    have hself' : R ≠ (ms.foldl handleIncomingChannelMessage st).serviceInstanceID := by
      rw [foldl_handle_serviceInstanceID]
      exact hself
    rw [handle_dir_eq _ R d hR hself']
    exact getAssoc_setAssoc_self _ R d
  · intro d
    rw [handle_dir_eq st R d hR hself]
    have hself' : R ≠ ({ st with wsClients := setAssoc st.wsClients R d } : RouterState).serviceInstanceID := hself
    rw [handle_dir_eq _ R d hR hself']
    simp [setAssoc_setAssoc]
  · intro c x
    rw [handle_add_eq st R c hR hself]
    simp only [getAssoc_setAssoc_self, Option.getD_some]
    exact mem_dirAdd _ c x
  · intro c x
    rw [handle_del_eq st R c hR hself]
    simp only [getAssoc_setAssoc_self, Option.getD_some]
    exact mem_dirDel _ c x
  · rw [handle_rem_eq st R hR hself]
    exact getAssoc_removeAssoc_self _ R

/-- Claim C5 witness: on a fresh replica `G0`, a single `wsdir.dir` from
`G1` installs the supplied directory. -/
theorem C5_directory_gossip_witness :
    getAssoc (([] ++ [gmsg "G1" "wsdir.dir" "" ["c1"]]).foldl handleIncomingChannelMessage
      ⟨"G0", [], [], [], []⟩).wsClients "G1" = some ["c1"] :=
  (C5_directory_gossip ⟨"G0", [], [], [], []⟩ "G1" (by decide) (by decide)).1 [] ["c1"]

/-! #### C9 — `via` messages with unknown subID are queued -/

/-- Claim C9: A channel message carrying `via` (and neither a refresh
action nor gossip with a foreign `routerID`) whose parsed `subID` is not
a locally connected client — including the case where the via route has
no subID at all — is enqueued whole (its `via` intact) under the queue
name `hydra-router:message:queue:<subID>` (Redis key `...:queued`);
when the subID is absent, JS template interpolation of `undefined`
yields the literal queue name `hydra-router:message:queue:undefined`. -/
theorem C9_via_unknown_subid_queued (st : RouterState) (m : ChannelMsg)
    (hact : m.bodyAction ≠ "refresh")
    (hgossip : m.bodyRouterID = "" ∨ m.bodyRouterID = st.serviceInstanceID)
    (hvia : m.via ≠ "")
    (hlocal : ∀ sid, m.viaSubID = some sid → sid ≠ "" →
      st.wsLocalClients.contains sid = false) :
    getAssoc (handleIncomingChannelMessage st m).queueStore
        ("hydra-router:message:queue:" ++ jsInterpolate m.viaSubID ++ ":queued")
      = some ((getAssoc st.queueStore ("hydra-router:message:queue:" ++ jsInterpolate m.viaSubID ++ ":queued")).getD [] ++ [m]) ∧
    (m.viaSubID = none →
      "hydra-router:message:queue:" ++ jsInterpolate m.viaSubID
        = "hydra-router:message:queue:undefined") := by
  have hact' : (m.bodyAction == "refresh") = false := beq_eq_false_iff_ne.mpr hact
  have hvia' : (m.via == "") = false := beq_eq_false_iff_ne.mpr hvia
  have hg : (!(m.bodyRouterID == "") && !(m.bodyRouterID == st.serviceInstanceID)) = false := by
    rcases hgossip with h | h <;> simp [h]
  constructor
  · cases hvs : m.viaSubID with
    | none =>
      simp only [handleIncomingChannelMessage, hact', hvia', hg, hvs,
        Bool.false_eq_true, if_false, Bool.not_false, if_true]
      simp [enqueueStore, getAssoc_setAssoc_self, String.append_assoc]
    | some sid =>
      by_cases hsid : sid = ""
      · subst hsid
        simp only [handleIncomingChannelMessage, hact', hvia', hg, hvs,
          Bool.false_eq_true, if_false, Bool.not_false, if_true]
        simp [enqueueStore, getAssoc_setAssoc_self, String.append_assoc, jsInterpolate]
      · have hc := hlocal sid hvs hsid
        have hsid' : (sid == "") = false := beq_eq_false_iff_ne.mpr hsid
        simp only [handleIncomingChannelMessage, hact', hvia', hg, hvs,
          Bool.false_eq_true, if_false, Bool.not_false, if_true, hsid', hc]
        simp [enqueueStore, getAssoc_setAssoc_self, String.append_assoc, jsInterpolate]
  · intro h
    simp [h, jsInterpolate]

/-- Claim C9 witness: on an empty router state, the message lands in the
`hydra-router:message:queue:undefined:queued` list. -/
theorem C9_via_unknown_subid_queued_witness :
    getAssoc (handleIncomingChannelMessage ⟨"G0", [], [], [], []⟩ c9msg).queueStore
        ("hydra-router:message:queue:" ++ jsInterpolate c9msg.viaSubID ++ ":queued")
      = some ((getAssoc (⟨"G0", [], [], [], []⟩ : RouterState).queueStore
          ("hydra-router:message:queue:" ++ jsInterpolate c9msg.viaSubID ++ ":queued")).getD [] ++ [c9msg]) ∧
    "hydra-router:message:queue:" ++ jsInterpolate c9msg.viaSubID
      = "hydra-router:message:queue:undefined" := by
  have h := C9_via_unknown_subid_queued ⟨"G0", [], [], [], []⟩ c9msg
    (by decide) (Or.inl (by decide)) (by decide)
    (by intro sid hs; cases hs)
  exact ⟨h.1, h.2 rfl⟩

/-! #### Stats-ring lemmas -/

theorem getAssoc_cons_eq {α : Type} (k' : String) (v' : α) (t : List (String × α))
    (k : String) (hk : (k' == k) = true) :
    getAssoc ((k', v') :: t) k = some v' := by
  simp [getAssoc, List.find?, hk]

theorem getAssoc_cons_ne {α : Type} (k' : String) (v' : α) (t : List (String × α))
    (k : String) (hk : (k' == k) = false) :
    getAssoc ((k', v') :: t) k = getAssoc t k := by
  simp [getAssoc, List.find?, hk]

theorem getAssoc_mem {α : Type} : ∀ {l : List (String × α)} {k : String} {v : α},
    getAssoc l k = some v → (k, v) ∈ l := by
  intro l
  induction l with
  | nil => intro k v h; simp [getAssoc, List.find?] at h
  | cons q t ih =>
    intro k v h
    obtain ⟨k', v'⟩ := q
    by_cases hk : (k' == k) = true
    · rw [getAssoc_cons_eq k' v' t k hk] at h
      have hkk : k' = k := eq_of_beq hk
      have hv : v' = v := by injection h
      subst hkk
      subst hv
      exact List.mem_cons_self _ _
    · rw [getAssoc_cons_ne k' v' t k (by simpa using hk)] at h
      exact List.mem_cons_of_mem _ (ih h)

theorem mem_setAssoc {α : Type} {p : String × α} :
    ∀ (l : List (String × α)) (k : String) (v : α),
      p ∈ setAssoc l k v → p = (k, v) ∨ p ∈ l := by
  intro l
  induction l with
  | nil =>
    intro k v h
    simp [setAssoc] at h
    exact Or.inl h
  | cons q t ih =>
    intro k v h
    obtain ⟨k', v'⟩ := q
    by_cases hk : (k' == k) = true
    · simp only [setAssoc, hk, if_true] at h
      rcases List.mem_cons.mp h with h | h
      · exact Or.inl h
      · exact Or.inr (List.mem_cons_of_mem _ h)
    · simp only [setAssoc, hk, Bool.false_eq_true, if_false] at h
      rcases List.mem_cons.mp h with h | h
      · exact Or.inr (h ▸ List.mem_cons_self _ _)
      · rcases ih k v h with h' | h'
        · exact Or.inl h'
        · exact Or.inr (List.mem_cons_of_mem _ h')

theorem ensureEntry_getAssoc (st : StatsState) (t : String) :
    getAssoc (ensureEntry st t).stats t = some (entry0 st t) := by
  unfold ensureEntry entry0
  cases h : getAssoc st.stats t with
  | some e => simp [h]
  | none => simp [h, getAssoc_setAssoc_self]

theorem ensureEntry_cellVisit (st : StatsState) (t : String) :
    (ensureEntry st t).cellVisit = st.cellVisit := by
  unfold ensureEntry
  cases h : getAssoc st.stats t <;> rfl

theorem setAssoc_ensureEntry (st : StatsState) (t : String) (v : List Nat) :
    setAssoc (ensureEntry st t).stats t v = setAssoc st.stats t v := by
  unfold ensureEntry
  cases h : getAssoc st.stats t with
  | some e => rfl
  | none => simp [setAssoc_setAssoc]

theorem getD_set_self (l : List Nat) (i a : Nat) (h : i < l.length) :
    (l.set i a).getD i 0 = a := by
  rw [List.getD_eq_getElem?_getD, List.getElem?_set_eq_of_lt a h]
  rfl

theorem statsLog_fresh_eq (st : StatsState) (t : String) (s : Nat)
    (hcv : st.cellVisit.getD s 0 = 0) :
    statsLog st t s =
      { stats := setAssoc st.stats t ((entry0 st t).set s 1),
        cellVisit := st.cellVisit.set s 1 } := by
  have h1 := ensureEntry_getAssoc st t
  have h2 := ensureEntry_cellVisit st t
  have hcv' : st.cellVisit[s]?.getD 0 = 0 := by
    rw [← List.getD_eq_getElem?_getD]
    exact hcv
  by_cases hs0 : s = 0
  · subst hs0
    simp [statsLog, h1, h2, hcv', setAssoc_ensureEntry]
  · have hs0' : (s == 0) = false := by simpa using hs0
    simp [statsLog, h1, h2, hcv', hs0', setAssoc_ensureEntry]

theorem statsLog_revisit_eq (st : StatsState) (t : String) (s : Nat)
    (hs0 : s ≠ 0) (hcv : st.cellVisit.getD s 0 = 1) :
    statsLog st t s =
      { stats := setAssoc st.stats t ((entry0 st t).set s ((entry0 st t).getD s 0 + 1)),
        cellVisit := st.cellVisit } := by
  have h1 := ensureEntry_getAssoc st t
  have h2 := ensureEntry_cellVisit st t
  have hcv' : st.cellVisit[s]?.getD 0 = 1 := by
    rw [← List.getD_eq_getElem?_getD]
    exact hcv
  have hs0' : (s == 0) = false := by simpa using hs0
  simp [statsLog, h1, h2, hcv', hs0', setAssoc_ensureEntry]

theorem statsLogN_eq (st : StatsState) (t : String) (s : Nat)
    (hs : s < 3600) (hs0 : 0 < s)
    (hcvlen : st.cellVisit.length = 3600)
    (hcv : st.cellVisit.getD s 0 = 0)
    (hentlen : (entry0 st t).length = 3600) :
    ∀ N, 0 < N → statsLogN st t s N =
      { stats := setAssoc st.stats t ((entry0 st t).set s N),
        cellVisit := st.cellVisit.set s 1 } := by
  intro N hN
  induction N with
  | zero => exact absurd hN (by omega)
  | succ n ih =>
    rcases Nat.eq_zero_or_pos n with h0 | hpos
    · subst h0
      show statsLog (statsLogN st t s 0) t s = _
      exact statsLog_fresh_eq st t s hcv
    · show statsLog (statsLogN st t s n) t s = _
      rw [ih hpos]
      have hcv1 : (st.cellVisit.set s 1).getD s 0 = 1 :=
        getD_set_self st.cellVisit s 1 (by omega)
      rw [statsLog_revisit_eq _ t s (by omega) hcv1]
      have he : entry0 ⟨setAssoc st.stats t ((entry0 st t).set s n), st.cellVisit.set s 1⟩ t = (entry0 st t).set s n := by
        simp [entry0, getAssoc_setAssoc_self]
      rw [he]
      have hn : ((entry0 st t).set s n).getD s 0 = n :=
        getD_set_self _ s n (by omega)
      rw [hn]
      simp [setAssoc_setAssoc, List.set_set]

theorem take_drop_last (r : Nat) : ∀ (l : List Nat), r + 1 ≤ l.length →
    (l.take (r + 1)).drop r = [l.getD r 0] := by
  induction r with
  | zero =>
    intro l h
    cases l with
    | nil => simp at h
    | cons a t => simp
  | succ r ih =>
    intro l h
    cases l with
    | nil => simp at h
    | cons a t =>
      have ht : r + 1 ≤ t.length := by
        simp at h
        omega
      simpa [List.take_succ_cons, List.drop_succ_cons, List.getD_cons_succ]
        using ih t ht

theorem drop_pred_eq_last (l : List Nat) (n : Nat) (h : l.length = n + 1) :
    l.drop n = [l.getD n 0] := by
  have h1 : n + 1 ≤ l.length := by omega
  have h2 := take_drop_last n l h1
  rwa [List.take_of_length_le (by omega)] at h2

theorem getLastSecond_rotation (data : List Nat) (r : Nat)
    (hlen : data.length = 3600) (hr : r < 3600) :
    getLastSecond (jsSliceNeg data (3600 - r) ++ data.take r)
      = [data.getD ((r + 3599) % 3600) 0] := by
  have hdrop : jsSliceNeg data (3600 - r) = data.drop r := by
    unfold jsSliceNeg
    congr 1
    omega
  rcases Nat.eq_zero_or_pos r with hr0 | hrpos
  · subst hr0
    simp only [hdrop, List.drop_zero, List.take_zero, List.append_nil]
    unfold getLastSecond jsSliceNeg
    rw [hlen]
    have hidx : (0 + 3599) % 3600 = 3599 := by norm_num
    rw [hidx]
    exact drop_pred_eq_last data 3599 (by omega)
  · obtain ⟨r', rfl⟩ : ∃ r', r = r' + 1 := ⟨r - 1, by omega⟩
    rw [hdrop]
    unfold getLastSecond jsSliceNeg
    have hlen2 : (data.drop (r' + 1) ++ data.take (r' + 1)).length = 3600 := by
      simp only [List.length_append, List.length_drop, List.length_take]
      omega
    rw [hlen2, List.drop_append_eq_append_drop]
    have hnil : (data.drop (r' + 1)).drop (3600 - 1) = [] := by
      apply List.drop_eq_nil_of_le
      simp only [List.length_drop]
      omega
    rw [hnil, List.nil_append]
    have hidx2 : 3600 - 1 - (data.drop (r' + 1)).length = r' := by
      simp only [List.length_drop]
      omega
    rw [hidx2]
    have hmod : (r' + 1 + 3599) % 3600 = r' := by omega
    rw [hmod]
    exact take_drop_last r' data (by omega)

/-! #### C6 — per-second counting -/

/-- Claim C6 counterexample: The claim fails in two ways.  (i) At second
`s = 0` the wrap-reset fires on every call after the first (the code
cannot tell a same-second revisit of slot 0 from an hour wrap), so two
calls at `s = 0` leave the slot at 1, not 2.  (ii) The rotated snapshot
taken during the same second ends at slot `s − 1`, so right after one
call at `s = 5` the 1-second readout is `[0]`, not `[1]`. -/
theorem C6_counterexample_wrap_and_rotation :
    slotValue (statsLogN freshStats "a" 0 2) "a" 0 = 1 ∧
    getLastSecond (getRawStatsEntry (statsLogN freshStats "a" 5 1) "a" 5) = [0] := by
  constructor
  · decide
  · have h1 : statsLogN freshStats "a" 5 1
        = ⟨setAssoc freshStats.stats "a" ((entry0 freshStats "a").set 5 1), freshStats.cellVisit.set 5 1⟩ := by
      show statsLog freshStats "a" 5 = _
      exact statsLog_fresh_eq freshStats "a" 5 (by decide)
    rw [h1]
    simp only [getRawStatsEntry, getAssoc_setAssoc_self, Option.getD_some]
    have he0 : entry0 freshStats "a" = List.replicate ONE_HOUR 0 := rfl
    have hlen : ((entry0 freshStats "a").set 5 1).length = 3600 := by
      rw [List.length_set, he0, List.length_replicate]
      rfl
    have hOH : (ONE_HOUR : Nat) = 3600 := rfl
    rw [hOH, getLastSecond_rotation _ 5 hlen (by norm_num)]
    have hidx : (5 + 3599) % 3600 = 4 := by norm_num
    rw [hidx]
    decide

/-- Claim C6, amended: For a second `s` with `0 < s < 3600` that has not
yet been counted (`cellVisit[s] = 0`), `N ≥ 1` calls to `log(t)` at
second `s` leave the counter slot for `t` at index `s` equal to `N`,
and the 1-second readout (`getLastSecond`) of the snapshot rotated at
the FOLLOWING second `(s+1) mod 3600` equals `[N]`.  (At `s = 0` the
wrap-reset caps the slot at 1, and a snapshot rotated during second `s`
ends at slot `s − 1` — see the counterexample.) -/
theorem C6_stats_second_count (st : StatsState) (t : String) (s N : Nat)
    (hs : s < 3600) (hs0 : 0 < s)
    (hcvlen : st.cellVisit.length = 3600)
    (hcv : st.cellVisit.getD s 0 = 0)
    (hentlen : (entry0 st t).length = 3600)
    (hN : 0 < N) :
    slotValue (statsLogN st t s N) t s = N ∧
    getLastSecond (getRawStatsEntry (statsLogN st t s N) t ((s + 1) % 3600)) = [N] := by
  have hmain := statsLogN_eq st t s hs hs0 hcvlen hcv hentlen N hN
  constructor
  · rw [hmain]
    unfold slotValue
    simp only [getAssoc_setAssoc_self, Option.getD_some]
    exact getD_set_self _ s N (by omega)
  · rw [hmain]
    simp only [getRawStatsEntry, getAssoc_setAssoc_self, Option.getD_some]
    have hlen : ((entry0 st t).set s N).length = 3600 := by
      simp [hentlen]
    have hOH : (ONE_HOUR : Nat) = 3600 := rfl
    rw [hOH, getLastSecond_rotation _ _ hlen (Nat.mod_lt _ (by norm_num))]
    have hidx : ((s + 1) % 3600 + 3599) % 3600 = s := by omega
    rw [hidx, getD_set_self _ s N (by omega)]

/-- Claim C6 witness: two fresh calls at second 5 give slot value 2 and a
next-second 1-second readout of `[2]`. -/
theorem C6_stats_second_count_witness :
    slotValue (statsLogN freshStats "a" 5 2) "a" 5 = 2 ∧
    getLastSecond (getRawStatsEntry (statsLogN freshStats "a" 5 2) "a" ((5 + 1) % 3600)) = [2] :=
  C6_stats_second_count freshStats "a" 5 2 (by norm_num) (by norm_num)
    (by rw [show freshStats.cellVisit = List.replicate ONE_HOUR 0 from rfl, List.length_replicate]; rfl)
    (by decide)
    (by rw [show entry0 freshStats "a" = List.replicate ONE_HOUR 0 from rfl, List.length_replicate]; rfl)
    (by norm_num)

/-! #### C10 — snapshot length invariance -/

theorem statsLog_stats_shape (st : StatsState) (t : String) (s : Nat) :
    ∃ v : List Nat, v.length = (entry0 st t).length ∧
      (statsLog st t s).stats = setAssoc (ensureEntry st t).stats t v := by
  have h1 := ensureEntry_getAssoc st t
  unfold statsLog
  simp only [h1, Option.getD_some]
  split_ifs <;> refine ⟨_, ?_, rfl⟩ <;> simp [List.length_set]

theorem statsLog_entry_lengths (st : StatsState) (t : String) (s : Nat)
    (hinv : ∀ p ∈ st.stats, p.2.length = 3600) :
    ∀ p ∈ (statsLog st t s).stats, p.2.length = 3600 := by
  obtain ⟨v, hv, hshape⟩ := statsLog_stats_shape st t s
  have hent : (entry0 st t).length = 3600 := by
    unfold entry0
    cases h : getAssoc st.stats t with
    | none =>
      rw [Option.getD_none, List.length_replicate]
      rfl
    | some e => simpa using hinv _ (getAssoc_mem h)
  have hinv' : ∀ p ∈ (ensureEntry st t).stats, p.2.length = 3600 := by
    intro p hp
    unfold ensureEntry at hp
    cases h : getAssoc st.stats t with
    | some e =>
      rw [h] at hp
      exact hinv p hp
    | none =>
      rw [h] at hp
      rcases mem_setAssoc _ _ _ hp with h' | h'
      · rw [h']
        rw [List.length_replicate]
        rfl
      · exact hinv _ h'
  rw [hshape]
  intro p hp
  rcases mem_setAssoc _ _ _ hp with h' | h'
  · rw [h']
    exact hv.trans hent
  · exact hinv' _ h'

theorem statsLog_isSome (st : StatsState) (t t' : String) (s : Nat)
    (h : t = t' ∨ (getAssoc st.stats t).isSome = true) :
    (getAssoc (statsLog st t' s).stats t).isSome = true := by
  obtain ⟨v, _, hshape⟩ := statsLog_stats_shape st t' s
  rw [hshape]
  by_cases he : t = t'
  · subst he
    simp [getAssoc_setAssoc_self]
  · rw [getAssoc_setAssoc_ne _ _ _ _ he]
    rcases h with h | h
    · exact absurd h he
    · cases hg : getAssoc st.stats t' with
      | some e =>
        simp only [ensureEntry, hg]
        exact h
      | none =>
        simp only [ensureEntry, hg]
        rw [getAssoc_setAssoc_ne _ _ _ _ he]
        exact h

theorem runCalls_inv (calls : List (String × Nat)) :
    ∀ st : StatsState, (∀ p ∈ st.stats, p.2.length = 3600) →
      ∀ p ∈ (calls.foldl (fun st c => statsLog st c.1 c.2) st).stats, p.2.length = 3600 := by
  induction calls with
  | nil => intro st h; exact h
  | cons c cs ih =>
    intro st h
    rw [List.foldl_cons]
    exact ih _ (statsLog_entry_lengths st c.1 c.2 h)

theorem runCalls_isSome (calls : List (String × Nat)) (t : String) :
    ∀ st : StatsState,
      (t ∈ calls.map Prod.fst ∨ (getAssoc st.stats t).isSome = true) →
      (getAssoc ((calls.foldl (fun st c => statsLog st c.1 c.2) st)).stats t).isSome = true := by
  induction calls with
  | nil =>
    intro st h
    rcases h with h | h
    · simp at h
    · exact h
  | cons c cs ih =>
    intro st h
    rw [List.foldl_cons]
    apply ih
    rcases h with h | h
    · have h2 : t ∈ c.1 :: cs.map Prod.fst := by
        rw [List.map_cons] at h
        exact h
      rcases List.mem_cons.mp h2 with h' | h'
      · exact Or.inr (statsLog_isSome st t c.1 c.2 (Or.inl h'))
      · exact Or.inl h'
    · exact Or.inr (statsLog_isSome st t c.1 c.2 (Or.inr h))

/-- Claim C10: For every target `t` logged at least once (from the fresh
state) and every cursor second `s < 3600`, the rotated per-target
snapshot of `getRawStats` has exactly 3600 entries, and the
comma-joined `getStats` string joins exactly 3600 entries: the rotation
`slice(-(3600−s)) ++ slice(0,s)` keeps the readout length independent
of the cursor position. -/
theorem C10_snapshot_length (calls : List (String × Nat)) (t : String) (s : Nat)
    (ht : t ∈ calls.map Prod.fst) (hs : s < 3600) :
    (getRawStatsEntry (runStatsCalls calls) t s).length = 3600 ∧
    ∃ parts : List String, parts.length = 3600 ∧
      getStatsEntry (runStatsCalls calls) t s = String.intercalate "," parts := by
  have hsome : (getAssoc (runStatsCalls calls).stats t).isSome = true :=
    runCalls_isSome calls t freshStats (Or.inl ht)
  obtain ⟨e, he⟩ := Option.isSome_iff_exists.mp hsome
  have hinv := runCalls_inv calls freshStats (by intro p hp; simp [freshStats] at hp)
  have hlen : e.length = 3600 := by
    simpa using hinv (t, e) (getAssoc_mem he)
  constructor
  · simp only [getRawStatsEntry, runStatsCalls] at *
    rw [he]
    simp only [Option.getD_some, List.length_append, jsSliceNeg,
      List.length_drop, List.length_take, ONE_HOUR]
    omega
  · refine ⟨(jsSliceNeg e (ONE_HOUR - s) ++ e.take s).map (fun n => toString n), ?_, ?_⟩
    · simp only [List.length_map, List.length_append, jsSliceNeg,
        List.length_drop, List.length_take, ONE_HOUR]
      omega
    · simp only [getStatsEntry, runStatsCalls] at *
      rw [he]
      simp only [Option.getD_some]

/-- Claim C10 witness: one call for `"a"`, snapshot taken at second 7. -/
theorem C10_snapshot_length_witness :
    (getRawStatsEntry (runStatsCalls [("a", 5)]) "a" 7).length = 3600 ∧
    ∃ parts : List String, parts.length = 3600 ∧
      getStatsEntry (runStatsCalls [("a", 5)]) "a" 7 = String.intercalate "," parts :=
  C10_snapshot_length [("a", 5)] "a" 7 (by decide) (by norm_num)
